import Mathlib

set_option autoImplicit false

/-!
Shallow embedding of the validation/merge pipeline in `src/lib/superValidate.ts`
of the sveltekit-superforms repository: `superValidate`, `message` and `setError`,
together with the record (plain JavaScript object) operations they perform.

Records are modelled as ordered association lists of string keys and JavaScript
values; a pair whose value is `vUndefined` models an own property whose value is
`undefined` (so presence of a key in the list corresponds to the JavaScript
`in` operator, and a missing key reads as `undefined`).
-/

namespace Superforms

/-- JavaScript values, as far as the pipeline inspects them: `undefined`, `null`,
booleans, numbers, strings, arrays and plain objects. -/
inductive Value where
  | vUndefined
  | vNull
  | vBool (b : Bool)
  | vNum (n : Int)
  | vStr (s : String)
  | vArr (elems : List Value)
  | vObj (fields : List (String × Value))

/-- A plain JavaScript object: ordered own properties. -/
abbrev Record := List (String × Value)

/-- First value stored under key `k`, if any (JavaScript objects have no
duplicate keys, so on well-formed records this is the unique value). -/
def rlookup (r : Record) (k : String) : Option Value :=
  match r with
  | [] => none
  | (k2, v) :: rest => if k2 = k then some v else rlookup rest k

/-- Models the JavaScript `k in r` test (own properties only). -/
def hasKey (r : Record) (k : String) : Bool :=
  (rlookup r k).isSome

/-- Models the JavaScript read `r[k]`: a missing key reads as `undefined`. -/
def getU (r : Record) (k : String) : Value :=
  (rlookup r k).getD .vUndefined

/-- Tests whether a value is the JavaScript `undefined`. -/
def isUndefined : Value → Bool
  | .vUndefined => true
  | _ => false

/-- Models a JavaScript property read `v[k]` on an arbitrary value: only plain
objects have own string-keyed properties in this model; reading a property off
an array or a primitive yields `undefined`. -/
def getProp (v : Value) (k : String) : Value :=
  match v with
  | .vObj r => getU r k
  | _ => .vUndefined

/-- Models the JavaScript object spread `{ ...a, ...b }`: the keys of `a` in
their order (values overwritten by `b` where `b` also has the key), followed by
the keys of `b` that `a` does not have. -/
def spread (a b : Record) : Record :=
  a.map (fun p => (p.1, (rlookup b p.1).getD p.2)) ++ b.filter (fun p => !(hasKey a p.1))

/-- Models the JavaScript property assignment `r[k] = v`: overwrite in place if
the key exists, else append. -/
def recSet (r : Record) (k : String) (v : Value) : Record :=
  if hasKey r k then r.map (fun p => if p.1 = k then (k, v) else p) else r ++ [(k, v)]

/-- The per-key decision of the key-stripping loop of `superValidate`
(src/lib/superValidate.ts lines 106-108): the value stored for a declared key,
if any — from `finalData` when the key is present there (`key in finalData`),
else from `defaults` when that default is not `undefined`, else nothing. -/
def stripVal (finalData defaults : Record) (key : String) : Option Value :=
  if hasKey finalData key then some (getU finalData key)
  else if !(isUndefined (getU defaults key)) then some (getU defaults key)
  else none

/-- The key-stripping loop of `superValidate` (src/lib/superValidate.ts lines
105-109), run when `additionalProperties` is falsy: iterate over the declared
keys, keeping for each the `stripVal` value when there is one. -/
def stripKeys (declared : List String) (finalData defaults : Record) : Record :=
  declared.filterMap (fun key => (stripVal finalData defaults key).map (fun v => (key, v)))

/-- The back-fill loop of `superValidate` (src/lib/superValidate.ts lines
111-117), run when `additionalProperties` is truthy: keep `finalData` and append
every defaulted key absent from it whose default is not `undefined`. -/
def backfill (finalData defaults : Record) : Record :=
  finalData ++ defaults.filter (fun p => !(hasKey finalData p.1) && !(isUndefined p.2))

/-- The subset of the JSON schama metadata that `superValidate` reads: the list
of declared top-level property names (`Object.keys(jsonSchema.properties)`,
`none` models an absent `properties` object) and the `additionalProperties`
flag (`none` models an absent flag; an object-valued `additionalProperties`,
being truthy, behaves as `some true` for the falsiness test the code makes). -/
structure JSONSchema where
  properties : Option (List String)
  additionalProperties : Option Bool

/-- Truthiness of the `additionalProperties` field: absent is falsy. -/
def truthyAP : Option Bool → Bool
  | none => false
  | some b => b

/-- One validation failure reported by an adapter: a path and a message. -/
structure Issue where
  path : List String
  message : String

/-- Outcome of running a validation backend on a record
(`ValidationResult` of src/lib/adapters). -/
inductive ValidationResult where
  | success (data : Record)
  | failure (issues : List Issue)

/-- The mapped validation adapter as consumed by `superValidate`: a defaults
tree, JSON schema metadata, a constraints tree, and the validating operation
(this single field covers both `validation.customValidator` and the generic
`validate(validation.validator, data)` call, which the code chooses between but
both of which are record-to-outcome operations supplied by the adapter). -/
structure ValidationAdapter where
  defaults : Record
  jsonSchema : JSONSchema
  constraints : Value
  validator : Record → ValidationResult

/-- Modelled from the spec: `parseRequest` (src/lib/formData.js) is not among
the provided sources. §4.2 gives its contract:
`parseRequest(source, schemaMeta, options) -> {data, id, posted}`, where `data`
is `undefined` for an absent source, `id` is the form identifier extracted from
a reserved metadata field when present, and `posted` is true exactly when the
source represents an actual submitted request body. `superValidate` is
therefore modelled as a function of this parsed triple. -/
structure ParsedInput where
  data : Option Record
  id : Option String
  posted : Bool

/-- The options record of `superValidate` (src/lib/superValidate.ts lines
33-40); `preprocessed` is omitted because it is only consumed inside the
external `parseRequest`. -/
structure SuperValidateOptions where
  errors : Option Bool := none
  id : Option String := none
  defaults : Option Record := none
  jsonSchema : Option JSONSchema := none
  strict : Option Bool := none

/-- The validated form object (`SuperValidated`): `id := none` models an
`undefined` id, `message := none` a form with no message set. -/
structure SuperValidated where
  id : Option String
  valid : Bool
  posted : Bool
  errors : Record
  data : Record
  constraints : Value
  message : Option Value := none

/-- Return value of `message` and `setError`: either SvelteKit's
`fail(status, { form })` or the bare `{ form }`. -/
inductive FormResponse where
  | fail (status : Nat) (form : SuperValidated)
  | ok (form : SuperValidated)

/-- The form carried by a response. -/
def formOf : FormResponse → SuperValidated
  | .fail _ f => f
  | .ok f => f

/-- Truthiness of `options?.strict` (line 82 and line 88). -/
def svStrict (options : SuperValidateOptions) : Bool :=
  options.strict.getD false

/-- Line 80: `options?.defaults ?? validation.defaults`. -/
def svDefaults (validation : ValidationAdapter) (options : SuperValidateOptions) : Record :=
  options.defaults.getD validation.defaults

/-- Line 81: `options?.jsonSchema ?? validation.jsonSchema`. -/
def svJsonSchema (validation : ValidationAdapter) (options : SuperValidateOptions) : JSONSchema :=
  options.jsonSchema.getD validation.jsonSchema

/-- Line 82: `options?.errors ?? (options?.strict ? true : !!data)`;
`dataTruthy` is the truthiness of the raw `data` argument. -/
def svAddErrors (options : SuperValidateOptions) (dataTruthy : Bool) : Bool :=
  options.errors.getD (if svStrict options then true else dataTruthy)

/-- Line 88, the merge step:
`parsed.data = { ...(options?.strict ? {} : defaults), ...(parsed.data ?? {}) }`. -/
def svMergedData (validation : ValidationAdapter) (parsed : ParsedInput)
    (options : SuperValidateOptions) : Record :=
  spread (if svStrict options then [] else svDefaults validation options) (parsed.data.getD [])

/-- Lines 90-95: run the validating operation on the merged record when there
was parsed data or errors were requested, else short-circuit to an issue-free
failure. -/
def svStatus (validation : ValidationAdapter) (parsed : ParsedInput) (dataTruthy : Bool)
    (options : SuperValidateOptions) : ValidationResult :=
  if parsed.data.isSome || svAddErrors options dataTruthy then
    validation.validator (svMergedData validation parsed options)
  else .failure []

/-- Line 100: `valid ? status.data : parsed.data` (where `parsed.data` holds the
merged record by this point). -/
def svFinalData (validation : ValidationAdapter) (parsed : ParsedInput) (dataTruthy : Bool)
    (options : SuperValidateOptions) : Record :=
  match svStatus validation parsed dataTruthy options with
  | .success d => d
  | .failure _ => svMergedData validation parsed options

/-- Line 122: `parsed.id ?? options?.id ?? (parsed.posted ? undefined : formId())`;
`fresh` stands for the freshly generated `formId()` value. -/
def resolveId (parsedId optionsId : Option String) (posted : Bool) (fresh : String) :
    Option String :=
  match parsedId with
  | some i => some i
  | none =>
    match optionsId with
    | some i => some i
    | none => if posted then none else some fresh

/-- The `superValidate` pipeline (src/lib/superValidate.ts lines 63-129) as a
function of the mapped adapter, the parsed input (see `ParsedInput`), the
truthiness of the raw `data` argument, the options, the error-tree builder
`mapErrors` (src/lib/errors.js, an external input here) and the generated
fresh id. -/
def superValidate (validation : ValidationAdapter) (parsed : ParsedInput) (dataTruthy : Bool)
    (options : SuperValidateOptions) (mapErrorsFn : List Issue → Record) (fresh : String) :
    SuperValidated :=
  let defaults := svDefaults validation options
  let jsonSchema := svJsonSchema validation options
  let addErrors := svAddErrors options dataTruthy
  let status := svStatus validation parsed dataTruthy options
  let valid := match status with | .success _ => true | .failure _ => false
  let errors : Record :=
    if valid || !addErrors then []
    else mapErrorsFn (match status with | .failure issues => issues | .success _ => [])
  let finalData := svFinalData validation parsed dataTruthy options
  let outputData :=
    if !(truthyAP jsonSchema.additionalProperties) then
      stripKeys (jsonSchema.properties.getD []) finalData defaults
    else
      backfill finalData defaults
  { id := resolveId parsed.id options.id parsed.posted fresh
    valid := valid
    posted := parsed.posted
    errors := errors
    data := outputData
    constraints := validation.constraints }

/-- Modelled from the spec: the `NumericRange<400, 599>` type
(src/lib/utils.ts) is not among the provided sources; §4.6 describes the
`status` option as "400-599". `NumericRange lo hi n` states that `n` inhabits
the TypeScript type `NumericRange<lo, hi>`. -/
def NumericRange (lo hi n : Nat) : Prop :=
  lo ≤ n ∧ n ≤ hi

/-- The `message` function (src/lib/superValidate.ts lines 135-148): flip
`valid` to false when a truthy status of at least 400 is given, attach the
message, and wrap the form in `fail(status ?? 400, ...)` when invalid, in a
bare success object otherwise. -/
def message (form : SuperValidated) (msg : Value) (status : Option Nat) : FormResponse :=
  let form1 :=
    match status with
    | some s => if s ≠ 0 ∧ 400 ≤ s then { form with valid := false } else form
    | none => form
  let form2 := { form1 with message := some msg }
  if !form2.valid then .fail (status.getD 400) form2 else .ok form2

/-- Splitter state machine over the characters of a path string, accumulating
the current segment in reverse. -/
def splitPathAux : List Char → List Char → List String
  | [], acc => if acc.isEmpty then [] else [String.mk acc.reverse]
  | c :: rest, acc =>
    if c = '.' ∨ c = '[' ∨ c = ']' then
      if acc.isEmpty then splitPathAux rest []
      else String.mk acc.reverse :: splitPathAux rest []
    else splitPathAux rest (c :: acc)

/-- Modelled from the spec: `splitPath` (src/lib/stringPath.js) is not among
the provided sources. §4.1: the parse operation splits a path string on `.`
and `[n]` into an ordered sequence of segments (so `a.b[2].c` becomes the
segments `a`, `b`, `2`, `c`). Malformed-path failure is not modelled; the
claims only exercise well-formed paths. -/
def splitPath (p : String) : List String :=
  splitPathAux p.toList []

/-- The per-leaf update that `setError` performs through the traversal hook
(src/lib/superValidate.ts lines 220-221):
`Array.isArray(leaf.value) && !options.overwrite ? leaf.value.concat(errArr) : errArr`. -/
def setErrorValue (old : Value) (errArr : List String) (overwrite : Bool) : Value :=
  match old with
  | .vArr l => if !overwrite then .vArr (l ++ errArr.map .vStr) else .vArr (errArr.map .vStr)
  | _ => .vArr (errArr.map .vStr)

/-- Modelled from the spec: `traversePath` (src/lib/traversal.js) is not among
the provided sources. §4.1: resolution walks the root following the path; for
each intermediate segment whose current value is `undefined` the caller's hook
creates and attaches a new container (here `{}`, as `setError`'s hook does) and
the walk continues into it; the final segment's slot is then overwritten. When
an intermediate value is not a container the resolution stops and yields
nothing (the root is then left unchanged by `setError`; mutations a partial
walk may have made in JavaScript are not observable through the claims, which
only use single-segment paths). -/
def setAtPath (root : Record) (path : List String) (f : Value → Value) : Option Record :=
  match path with
  | [] => none
  | [k] => some (recSet root k (f (getU root k)))
  | k :: rest =>
    let child := if isUndefined (getU root k) then Value.vObj [] else getU root k
    match child with
    | .vObj r2 => (setAtPath r2 rest f).map (fun r3 => recSet root k (.vObj r3))
    | _ => none

/-- The `setError` function (src/lib/superValidate.ts lines 189-227), in its
unified form after the overload-normalization block (lines 196-204): an omitted
path has become `""`, and a single string error has become a one-element
`errArr`. The guard `if (!form.errors) form.errors = {}` is a no-op here since
`errors` is always a record; the guard `if (!form.errors._errors)
form.errors._errors = []` is modelled by starting from `[]` whenever the stored
`_errors` is not an array (on a truthy non-array JavaScript would throw in the
subsequent `concat`; such a value cannot arise from this API). -/
def setError (form : SuperValidated) (path : String) (errArr : List String)
    (overwrite : Bool) (status : Option Nat) : FormResponse :=
  let errors0 := form.errors
  let errors1 :=
    if path = "" then
      let base := match getU errors0 "_errors" with | .vArr l => l | _ => []
      recSet errors0 "_errors"
        (if overwrite then .vArr (errArr.map .vStr) else .vArr (base ++ errArr.map .vStr))
    else
      match setAtPath errors0 (splitPath path) (fun old => setErrorValue old errArr overwrite) with
      | some e2 => e2
      | none => errors0
  .fail (status.getD 400) { form with errors := errors1, valid := false }

/-- Spec-side definition, for comparison in the defaults-idempotence claim:
the restriction of a record to a list of declared keys, in declared-key order
("`data` exactly equal to the adapter's `defaults` tree ... restricted to
declared keys", spec §8). -/
def restrictTo (declared : List String) (r : Record) : Record :=
  declared.filterMap (fun k => (rlookup r k).map (fun v => (k, v)))

/-- A concrete adapter used by the closed witness and counterexample theorems:
one declared key `name` with a string default, extra keys not allowed, an
always-succeeding echo validator. -/
def sampleAdapter : ValidationAdapter :=
  { defaults := [("name", Value.vStr "Hello world!")]
    jsonSchema := { properties := some ["name"], additionalProperties := some false }
    constraints := Value.vNull
    validator := fun r => .success r }

/-- An error-tree builder that always yields the empty tree, used as the
`mapErrors` input of concrete runs that never reach it. -/
def noIssueTree : List Issue → Record := fun _ => []

/-- A concrete fresh validated form for the mutation-API witness and
counterexample theorems. -/
def c7Form : SuperValidated :=
  { id := none, valid := true, posted := false, errors := [], data := [],
    constraints := Value.vNull }

/-- The form after `setError(form, 'x', 'first')`. -/
def c7Step1 : SuperValidated := formOf (setError c7Form "x" ["first"] false none)

/-- The form after a further `setError(form, 'x', 'second', {overwrite: false})`. -/
def c7Step2 : SuperValidated := formOf (setError c7Step1 "x" ["second"] false none)

/-- The same options, but with the effective JSON schema pinned to one whose
`additionalProperties` is explicitly false (all other schema parts unchanged);
used to compare the absent-flag behavior against the explicit-false one. -/
def withAPFalse (validation : ValidationAdapter) (options : SuperValidateOptions) :
    SuperValidateOptions :=
  let js := svJsonSchema validation options
  { options with jsonSchema := some { js with additionalProperties := some false } }

/-- A concrete parsed posted input carrying an extra key `foo` not declared by
`sampleAdapter`'s schema. -/
def fooParsed : ParsedInput :=
  { data := some [("foo", Value.vStr "bar")], id := none, posted := true }

/-- A concrete parsed posted input in which the user supplied an empty string
for the defaulted key `name`. -/
def emptyNameParsed : ParsedInput :=
  { data := some [("name", Value.vStr "")], id := none, posted := true }

/-- A concrete parsed absent input (`data` and `id` undefined, not posted). -/
def absentParsed : ParsedInput := { data := none, id := none, posted := false }

/-- The `sampleAdapter` with the `properties` object absent from its schema. -/
def noPropsAdapter : ValidationAdapter :=
  { defaults := [("name", Value.vStr "Hello world!")]
    jsonSchema := { properties := none, additionalProperties := some false }
    constraints := Value.vNull
    validator := fun r => .success r }

/-- The `sampleAdapter` with the `additionalProperties` flag absent from its
schema. -/
def noAPAdapter : ValidationAdapter :=
  { defaults := [("name", Value.vStr "Hello world!")]
    jsonSchema := { properties := some ["name"], additionalProperties := none }
    constraints := Value.vNull
    validator := fun r => .success r }

theorem rlookup_append (l1 l2 : Record) (k : String) :
    rlookup (l1 ++ l2) k =
      match rlookup l1 k with
      | some v => some v
      | none => rlookup l2 k := by
  induction l1 with
  | nil => simp [rlookup]
  | cons p rest ih =>
    by_cases h : p.1 = k <;> simp [rlookup, h, ih]

theorem rlookup_map_overlay (a b : Record) (k : String) :
    rlookup (a.map (fun p => (p.1, (rlookup b p.1).getD p.2))) k =
      (rlookup a k).map (fun v => (rlookup b k).getD v) := by
  induction a with
  | nil => simp [rlookup]
  | cons p rest ih =>
    by_cases h : p.1 = k
    · simp [rlookup, h]
    · simp [rlookup, h, ih]

theorem rlookup_filter_key (b : Record) (pred : String → Bool) (k : String) :
    rlookup (b.filter (fun p => pred p.1)) k =
      if pred k then rlookup b k else none := by
  induction b with
  | nil => simp [rlookup]
  | cons p rest ih =>
    by_cases hk : p.1 = k
    · subst hk
      by_cases hp : pred p.1 <;> simp [rlookup, hp, ih]
    · by_cases hp : pred p.1 <;> simp [rlookup, hp, hk, ih]

/-- Lookup in a spread: the second record wins key by key. -/
theorem rlookup_spread (a b : Record) (k : String) :
    rlookup (spread a b) k =
      if hasKey b k then rlookup b k else rlookup a k := by
  unfold spread
  rw [rlookup_append, rlookup_map_overlay, rlookup_filter_key b (fun s => !(hasKey a s)) k]
  unfold hasKey
  cases ha : rlookup a k with
  | none =>
    cases hb : rlookup b k <;> simp [hb]
  | some v =>
    cases hb : rlookup b k <;> simp [hb]

theorem spread_nil_left (b : Record) : spread [] b = b := by
  unfold spread
  simp [hasKey, rlookup, List.filter_eq_self]

theorem spread_nil_right (a : Record) : spread a [] = a := by
  unfold spread
  simp [rlookup]

theorem hasKey_of_mem {d : Record} {p : String × Value} (hp : p ∈ d) :
    hasKey d p.1 = true := by
  induction d with
  | nil => cases hp
  | cons q rest ih =>
    rcases List.mem_cons.1 hp with h | h
    · subst h
      simp [hasKey, rlookup]
    · by_cases hq : q.1 = p.1 <;> simp [hasKey, rlookup, hq, ih h] at *
      exact ih h

theorem backfill_self (d : Record) : backfill d d = d := by
  unfold backfill
  have : d.filter (fun p => !(hasKey d p.1) && !(isUndefined p.2)) = [] := by
    rw [List.filter_eq_nil_iff]
    intro p hp
    simp [hasKey_of_mem hp]
  simp [this]

/-- Lookup in a list built by pairing each surviving key with a value computed
from that key alone. -/
theorem rlookup_filterMap_keyed (l : List String) (f : String → Option Value) (k : String) :
    rlookup (l.filterMap (fun d => (f d).map (fun v => (d, v)))) k =
      if k ∈ l then f k else none := by
  induction l with
  | nil => simp [rlookup]
  | cons d rest ih =>
    by_cases hdk : k = d
    · subst hdk
      cases hfd : f k with
      | none => simp [List.filterMap_cons, hfd, ih]
      | some v => simp [List.filterMap_cons, hfd, rlookup]
    · have hdk2 : ¬(d = k) := fun h => hdk h.symm
      cases hfd : f d with
      | none => simp [List.filterMap_cons, hfd, ih, hdk]
      | some v => simp [List.filterMap_cons, hfd, rlookup, hdk, hdk2, ih]

/-- Lookup in the stripped output: a declared key carries its `stripVal` value;
an undeclared key is absent. -/
theorem rlookup_stripKeys (declared : List String) (finalData defaults : Record) (k : String) :
    rlookup (stripKeys declared finalData defaults) k =
      if k ∈ declared then stripVal finalData defaults k else none := by
  unfold stripKeys
  exact rlookup_filterMap_keyed declared (stripVal finalData defaults) k

theorem stripVal_self (d : Record) (k : String) : stripVal d d k = rlookup d k := by
  unfold stripVal hasKey getU
  cases hx : rlookup d k with
  | none => simp [isUndefined]
  | some v => simp

/-- Stripping a record against itself as both data and defaults is exactly the
restriction to the declared keys. -/
theorem stripKeys_self_eq_restrictTo (declared : List String) (d : Record) :
    stripKeys declared d d = restrictTo declared d := by
  unfold stripKeys restrictTo
  induction declared with
  | nil => simp
  | cons x rest ih =>
    simp only [List.filterMap_cons, stripVal_self, ih]

theorem rlookup_map_set (r : Record) (k : String) (v : Value) (h : hasKey r k = true) :
    rlookup (r.map (fun p => if p.1 = k then (k, v) else p)) k = some v := by
  unfold hasKey at h
  induction r with
  | nil => simp [rlookup] at h
  | cons p rest ih =>
    obtain ⟨k2, w⟩ := p
    rw [List.map_cons]
    by_cases hp : k2 = k
    · rw [show (if (k2, w).1 = k then (k, v) else (k2, w)) = (k, v) from if_pos hp]
      simp [rlookup]
    · rw [show (if (k2, w).1 = k then (k, v) else (k2, w)) = (k2, w) from if_neg hp]
      rw [rlookup] at h ⊢
      rw [if_neg hp] at h ⊢
      exact ih h

theorem rlookup_recSet_self (r : Record) (k : String) (v : Value) :
    rlookup (recSet r k v) k = some v := by
  unfold recSet
  by_cases h : hasKey r k
  · rw [if_pos h]
    exact rlookup_map_set r k v h
  · rw [if_neg h]
    rw [rlookup_append]
    unfold hasKey at h
    cases hr : rlookup r k with
    | none => simp [hr, rlookup]
    | some w => rw [hr] at h; simp at h

theorem formOf_message (form : SuperValidated) (msg : Value) (status : Option Nat) :
    formOf (message form msg status) =
      { (match status with
         | some s => if s ≠ 0 ∧ 400 ≤ s then { form with valid := false } else form
         | none => form) with message := some msg } := by
  simp only [message]
  split <;> rfl

/-- C1 (amended): the id of the form returned by `superValidate` is resolved
with the priority: id parsed from the input first, then the explicit
caller-supplied `options.id`, then a freshly generated identifier when the
input was not a posted request, and `undefined` when the input was a posted
request with no id. -/
theorem superValidate_id_resolution (validation : ValidationAdapter) (parsed : ParsedInput)
    (dataTruthy : Bool) (options : SuperValidateOptions) (mapErrorsFn : List Issue → Record)
    (fresh : String) :
    (∀ i, parsed.id = some i →
      (superValidate validation parsed dataTruthy options mapErrorsFn fresh).id = some i) ∧
    (parsed.id = none → ∀ i, options.id = some i →
      (superValidate validation parsed dataTruthy options mapErrorsFn fresh).id = some i) ∧
    (parsed.id = none → options.id = none → parsed.posted = false →
      (superValidate validation parsed dataTruthy options mapErrorsFn fresh).id = some fresh) ∧
    (parsed.id = none → options.id = none → parsed.posted = true →
      (superValidate validation parsed dataTruthy options mapErrorsFn fresh).id = none) := by
  have hid : (superValidate validation parsed dataTruthy options mapErrorsFn fresh).id =
      resolveId parsed.id options.id parsed.posted fresh := rfl
  refine ⟨?_, ?_, ?_, ?_⟩ <;> intros <;> simp_all [resolveId]

/-- C1 witness: a run whose input carries the parsed id `a` yields a form with
id `a`. -/
theorem superValidate_id_resolution_witness :
    (superValidate sampleAdapter { data := none, id := some "a", posted := true } false {}
        noIssueTree "f").id = some "a" :=
  (superValidate_id_resolution sampleAdapter { data := none, id := some "a", posted := true }
      false {} noIssueTree "f").1 "a" rfl

/-- C1 counterexample: with both a parsed input id (`a`) and an explicit
caller-supplied `options.id` (`b`), the returned form's id is the parsed `a`,
not the caller-supplied `b` — the claimed priority of the caller-supplied id
over the parsed one fails. -/
theorem superValidate_id_counterexample :
    (superValidate sampleAdapter { data := some [], id := some "a", posted := false } true
        { id := some "b" } noIssueTree "fresh").id = some "a" ∧
    (superValidate sampleAdapter { data := some [], id := some "a", posted := false } true
        { id := some "b" } noIssueTree "fresh").id ≠ some "b" :=
  ⟨rfl, by decide⟩

/-- C2: a status below 400 is outside the declared `NumericRange<400, 599>`
type of the `status` option (so such a call is rejected), and every
failure response produced by `message` under that status contract carries a
status of at least 400 — a failure is never signalled with a success code. -/
theorem message_rejects_sub400_status :
    (∀ s : Nat, s < 400 → ¬ NumericRange 400 599 s) ∧
    (∀ (form : SuperValidated) (msg : Value) (status : Option Nat),
      (∀ t, status = some t → NumericRange 400 599 t) →
      ∀ code f2, message form msg status = .fail code f2 → 400 ≤ code) := by
  constructor
  · intro s hs hr
    exact absurd hr.1 (by omega)
  · intro form msg status hstat code f2 heq
    cases status with
    | none =>
      simp only [message] at heq
      split at heq
      · cases heq
        simp
      · cases heq
    | some s =>
      have hr := hstat s rfl
      simp only [message] at heq
      split at heq
      · split at heq
        · cases heq
          simpa using hr.1
        · cases heq
      · split at heq
        · cases heq
          simpa using hr.1
        · cases heq

/-- C2 witness: 399 is rejected by the status contract, and a concrete
`message` call with status 422 on an invalid form produces a failure response
with status 422. -/
theorem message_rejects_sub400_status_witness :
    (¬ NumericRange 400 599 399) ∧ (400 : Nat) ≤ 422 := by
  constructor
  · exact message_rejects_sub400_status.1 399 (by decide)
  · exact message_rejects_sub400_status.2
      { c7Form with valid := false } (Value.vStr "x") (some 422)
      (fun t ht => by cases ht; exact ⟨by decide, by decide⟩)
      422 { c7Form with valid := false, message := some (Value.vStr "x") } rfl

/-- C8: after any `setError` call — any form, any path including the empty
root path, any messages, any overwrite flag, any status, any prior validity —
the returned form's `valid` flag is false. -/
theorem setError_invalidates (form : SuperValidated) (path : String) (errArr : List String)
    (overwrite : Bool) (status : Option Nat) :
    (formOf (setError form path errArr overwrite status)).valid = false := by
  simp [setError, formOf]

/-- C9: the mutation calls never change the form's id, data, posted flag or
constraints: `setError` additionally preserves the message (modifying only the
errors tree and the valid flag), and `message` additionally preserves the
errors tree (modifying only the message field and the valid flag); in
particular the id assigned at creation is never regenerated by a mutation
call. -/
theorem mutation_calls_frame (form : SuperValidated) (path : String) (errArr : List String)
    (overwrite : Bool) (status : Option Nat) (msg : Value) (mstatus : Option Nat) :
    ((formOf (setError form path errArr overwrite status)).id = form.id ∧
     (formOf (setError form path errArr overwrite status)).data = form.data ∧
     (formOf (setError form path errArr overwrite status)).posted = form.posted ∧
     (formOf (setError form path errArr overwrite status)).constraints = form.constraints ∧
     (formOf (setError form path errArr overwrite status)).message = form.message) ∧
    ((formOf (message form msg mstatus)).id = form.id ∧
     (formOf (message form msg mstatus)).data = form.data ∧
     (formOf (message form msg mstatus)).posted = form.posted ∧
     (formOf (message form msg mstatus)).constraints = form.constraints ∧
     (formOf (message form msg mstatus)).errors = form.errors) := by
  constructor
  · refine ⟨?_, ?_, ?_, ?_, ?_⟩ <;> simp [setError, formOf]
  · rw [formOf_message]
    cases mstatus with
    | none => simp
    | some s =>
      by_cases hs : s ≠ 0 ∧ 400 ≤ s <;> simp [hs]

/-- C3: with `additionalProperties: false`, the data of the form returned by
`superValidate` contains no key outside the schema's declared properties (any
extra input key is dropped), and each declared key is filled from the
validated-or-merged data if present there, else from the defaults tree when
the default is defined, else absent. -/
theorem superValidate_strips_undeclared_keys (validation : ValidationAdapter)
    (parsed : ParsedInput) (dataTruthy : Bool) (options : SuperValidateOptions)
    (mapErrorsFn : List Issue → Record) (fresh : String)
    (hap : (svJsonSchema validation options).additionalProperties = some false) :
    (∀ k, k ∉ (svJsonSchema validation options).properties.getD [] →
      rlookup (superValidate validation parsed dataTruthy options mapErrorsFn fresh).data k =
        none) ∧
    (∀ k, k ∈ (svJsonSchema validation options).properties.getD [] →
      rlookup (superValidate validation parsed dataTruthy options mapErrorsFn fresh).data k =
        (if hasKey (svFinalData validation parsed dataTruthy options) k then
          some (getU (svFinalData validation parsed dataTruthy options) k)
         else if !(isUndefined (getU (svDefaults validation options) k)) then
          some (getU (svDefaults validation options) k)
         else none)) := by
  have hdata : (superValidate validation parsed dataTruthy options mapErrorsFn fresh).data =
      stripKeys ((svJsonSchema validation options).properties.getD [])
        (svFinalData validation parsed dataTruthy options) (svDefaults validation options) := by
    simp [superValidate, hap, truthyAP]
  constructor
  · intro k hk
    rw [hdata, rlookup_stripKeys, if_neg hk]
  · intro k hk
    rw [hdata, rlookup_stripKeys, if_pos hk]
    rfl

/-- C3 witness: the extra input key `foo` is absent from the returned data. -/
theorem superValidate_strips_undeclared_keys_witness :
    rlookup (superValidate sampleAdapter fooParsed true {} noIssueTree "f").data "foo" = none :=
  (superValidate_strips_undeclared_keys sampleAdapter fooParsed true {} noIssueTree "f"
    rfl).1 "foo" (by decide)

/-- C4: in non-strict mode the merged record passed to validation is the
adapter's defaults overlaid key-by-key with the parsed input data, the input
data winning wherever it has the key (so a user-supplied empty string replaces
a non-empty default); in strict mode the parsed input data is used as-is. -/
theorem superValidate_merge_step (validation : ValidationAdapter) (parsed : ParsedInput)
    (options : SuperValidateOptions) :
    (svStrict options = false →
      ∀ k,
        (hasKey (parsed.data.getD []) k = true →
          rlookup (svMergedData validation parsed options) k =
            rlookup (parsed.data.getD []) k) ∧
        (hasKey (parsed.data.getD []) k = false →
          rlookup (svMergedData validation parsed options) k =
            rlookup (svDefaults validation options) k)) ∧
    (svStrict options = true →
      svMergedData validation parsed options = parsed.data.getD []) := by
  constructor
  · intro hs k
    constructor
    · intro hk
      simp [svMergedData, hs, rlookup_spread, hk]
    · intro hk
      simp [svMergedData, hs, rlookup_spread, hk]
  · intro hs
    simp [svMergedData, hs, spread_nil_left]

/-- C4 witness: a user-supplied empty string for `name` survives the merge,
replacing the non-empty default. -/
theorem superValidate_merge_step_witness :
    rlookup (svMergedData sampleAdapter emptyNameParsed {}) "name" = some (Value.vStr "") :=
  (((superValidate_merge_step sampleAdapter emptyNameParsed {}).1 rfl "name").1 rfl).trans rfl

/-- C5: with an absent input (no data, not truthy) and no `errors`, `strict` or
`defaults` option, `superValidate` skips validation (the result does not depend
on the validator) and returns a form with `valid = false`, empty errors, and
data equal to the adapter's defaults tree — restricted to the declared keys
when `additionalProperties` is falsy. -/
theorem superValidate_empty_input_yields_defaults (validation : ValidationAdapter)
    (parsed : ParsedInput) (dataTruthy : Bool) (options : SuperValidateOptions)
    (mapErrorsFn : List Issue → Record) (fresh : String)
    (hdata : parsed.data = none) (hdt : dataTruthy = false)
    (herr : options.errors = none) (hstrict : options.strict = none)
    (hdfl : options.defaults = none) :
    (superValidate validation parsed dataTruthy options mapErrorsFn fresh).valid = false ∧
    (superValidate validation parsed dataTruthy options mapErrorsFn fresh).errors = [] ∧
    (superValidate validation parsed dataTruthy options mapErrorsFn fresh).data =
      (if truthyAP (svJsonSchema validation options).additionalProperties then
        validation.defaults
       else
        restrictTo ((svJsonSchema validation options).properties.getD [])
          validation.defaults) ∧
    (∀ w, superValidate { validation with validator := w } parsed dataTruthy options
        mapErrorsFn fresh =
      superValidate validation parsed dataTruthy options mapErrorsFn fresh) := by
  have hAdd : svAddErrors options dataTruthy = false := by
    simp [svAddErrors, herr, svStrict, hstrict, hdt]
  have hDefaults : svDefaults validation options = validation.defaults := by
    simp [svDefaults, hdfl]
  have hMerged : svMergedData validation parsed options = validation.defaults := by
    simp [svMergedData, svStrict, hstrict, hDefaults, hdata, spread_nil_right]
  have hStatus : svStatus validation parsed dataTruthy options = .failure [] := by
    simp [svStatus, hdata, hAdd]
  have hFinal : svFinalData validation parsed dataTruthy options = validation.defaults := by
    simp [svFinalData, hStatus, hMerged]
  refine ⟨?_, ?_, ?_, ?_⟩
  · simp [superValidate, hStatus]
  · simp [superValidate, hStatus, hAdd]
  · cases h : truthyAP (svJsonSchema validation options).additionalProperties with
    | true => simp [superValidate, h, hFinal, hDefaults, backfill_self]
    | false => simp [superValidate, h, hFinal, hDefaults, stripKeys_self_eq_restrictTo]
  · intro w
    have hStatusW : svStatus { validation with validator := w } parsed dataTruthy options =
        .failure [] := by
      simp [svStatus, hdata, hAdd]
    have hMergedW : svMergedData { validation with validator := w } parsed options =
        validation.defaults := by
      simp [svMergedData, svStrict, hstrict, svDefaults, hdfl, hdata, spread_nil_right]
    have hFinalW : svFinalData { validation with validator := w } parsed dataTruthy options =
        validation.defaults := by
      simp [svFinalData, hStatusW, hMergedW]
    simp [superValidate, hStatus, hStatusW, hFinal, hFinalW, hAdd, svDefaults, svJsonSchema]

/-- C5 witness: a concrete empty run on the sample adapter is invalid,
error-free, and carries the defaults tree restricted to the declared keys. -/
theorem superValidate_empty_input_yields_defaults_witness :
    (superValidate sampleAdapter absentParsed false {} noIssueTree "f").valid = false :=
  (superValidate_empty_input_yields_defaults sampleAdapter absentParsed false {} noIssueTree
    "f" rfl rfl rfl rfl rfl).1

/-- C6: when the schema has no `properties` object and `additionalProperties`
is false, the declared-key set is treated as empty and the returned data is the
empty object, whatever the input and the defaults contained. -/
theorem superValidate_absent_properties_empty_data (validation : ValidationAdapter)
    (parsed : ParsedInput) (dataTruthy : Bool) (options : SuperValidateOptions)
    (mapErrorsFn : List Issue → Record) (fresh : String)
    (hprops : (svJsonSchema validation options).properties = none)
    (hap : (svJsonSchema validation options).additionalProperties = some false) :
    (superValidate validation parsed dataTruthy options mapErrorsFn fresh).data = [] := by
  simp [superValidate, hap, truthyAP, hprops, stripKeys]

/-- C6 witness: a run with input data and a non-trivial defaults tree, against
a schema with no `properties`, yields empty data. -/
theorem superValidate_absent_properties_empty_data_witness :
    (superValidate noPropsAdapter fooParsed true {} noIssueTree "f").data = [] :=
  superValidate_absent_properties_empty_data noPropsAdapter fooParsed true {} noIssueTree "f"
    rfl rfl

/-- C10: when the schema's `additionalProperties` field is entirely absent,
`superValidate` applies the same key-stripping policy as
`additionalProperties: false` — extra input keys are dropped, the output data
is the declared-key stripping of the final data against the defaults, and the
result is identical to running with `additionalProperties` explicitly false. -/
theorem superValidate_absent_ap_strips (validation : ValidationAdapter)
    (parsed : ParsedInput) (dataTruthy : Bool) (options : SuperValidateOptions)
    (mapErrorsFn : List Issue → Record) (fresh : String)
    (hap : (svJsonSchema validation options).additionalProperties = none) :
    (∀ k, k ∉ (svJsonSchema validation options).properties.getD [] →
      rlookup (superValidate validation parsed dataTruthy options mapErrorsFn fresh).data k =
        none) ∧
    (superValidate validation parsed dataTruthy options mapErrorsFn fresh).data =
      stripKeys ((svJsonSchema validation options).properties.getD [])
        (svFinalData validation parsed dataTruthy options) (svDefaults validation options) ∧
    (superValidate validation parsed dataTruthy (withAPFalse validation options)
        mapErrorsFn fresh).data =
      (superValidate validation parsed dataTruthy options mapErrorsFn fresh).data := by
  have hdata : (superValidate validation parsed dataTruthy options mapErrorsFn fresh).data =
      stripKeys ((svJsonSchema validation options).properties.getD [])
        (svFinalData validation parsed dataTruthy options) (svDefaults validation options) := by
    simp [superValidate, hap, truthyAP]
  refine ⟨?_, hdata, ?_⟩
  · intro k hk
    rw [hdata, rlookup_stripKeys, if_neg hk]
  · rw [hdata]
    simp [superValidate, withAPFalse, truthyAP, svJsonSchema, svDefaults, svStrict,
      svAddErrors, svMergedData, svStatus, svFinalData]

/-- C10 witness: with `additionalProperties` absent, the extra input key `foo`
is dropped from the returned data. -/
theorem superValidate_absent_ap_strips_witness :
    rlookup (superValidate noAPAdapter fooParsed true {} noIssueTree "f").data "foo" = none :=
  (superValidate_absent_ap_strips noAPAdapter fooParsed true {} noIssueTree "f" rfl).1 "foo"
    (by decide)

theorem splitPath_x : splitPath "x" = ["x"] := by decide

/-- C7 (amended): `setError(form, 'x', 'first')` then
`setError(form, 'x', 'second', {overwrite: false})` (or with `overwrite`
omitted, which defaults to false) leaves the error array directly at
`errors.x` equal to `['first', 'second']`; with `{overwrite: true}` the second
call leaves `errors.x = ['second']`. (The array sits at `errors.x` itself, not
under an `_errors` property of it.) -/
theorem setError_overwrite_semantics (form : SuperValidated)
    (h : rlookup form.errors "x" = none) :
    rlookup (formOf (setError form "x" ["first"] false none)).errors "x" =
      some (Value.vArr [Value.vStr "first"]) ∧
    rlookup (formOf (setError (formOf (setError form "x" ["first"] false none)) "x"
        ["second"] false none)).errors "x" =
      some (Value.vArr [Value.vStr "first", Value.vStr "second"]) ∧
    rlookup (formOf (setError (formOf (setError form "x" ["first"] false none)) "x"
        ["second"] true none)).errors "x" =
      some (Value.vArr [Value.vStr "second"]) := by
  have estep : ∀ (g : SuperValidated) (errArr : List String) (ow : Bool),
      (formOf (setError g "x" errArr ow none)).errors =
        recSet g.errors "x" (setErrorValue (getU g.errors "x") errArr ow) := by
    intro g errArr ow
    simp [setError, formOf, splitPath_x, setAtPath]
  have hu : getU form.errors "x" = Value.vUndefined := by
    rw [getU, h]
    rfl
  have hb : getU (recSet form.errors "x"
      (setErrorValue Value.vUndefined ["first"] false)) "x" = Value.vArr [Value.vStr "first"] := by
    rw [getU, rlookup_recSet_self]
    rfl
  refine ⟨?_, ?_, ?_⟩
  · rw [estep, hu, rlookup_recSet_self]
    rfl
  · rw [estep, estep, hu, hb, rlookup_recSet_self]
    rfl
  · rw [estep, estep, hu, hb, rlookup_recSet_self]
    rfl

/-- C7 witness: on a concrete fresh form, the two appending calls leave
`errors.x = ['first', 'second']`. -/
theorem setError_overwrite_semantics_witness :
    rlookup (formOf (setError (formOf (setError c7Form "x" ["first"] false none)) "x"
        ["second"] false none)).errors "x" =
      some (Value.vArr [Value.vStr "first", Value.vStr "second"]) :=
  (setError_overwrite_semantics c7Form rfl).2.1

/-- C7 counterexample: after `setError(form, 'x', 'first')` and
`setError(form, 'x', 'second', {overwrite: false})` on a fresh form, reading
the `_errors` property of `errors.x` yields `undefined` — the stored value is a
plain array, so the claimed `errors.x._errors = ['first', 'second']` is false. -/
theorem setError_x_underscore_errors_counterexample :
    getProp (getU c7Step2.errors "x") "_errors" = Value.vUndefined ∧
    getProp (getU c7Step2.errors "x") "_errors" ≠
      Value.vArr [Value.vStr "first", Value.vStr "second"] := by
  constructor
  · rfl
  · rw [show getProp (getU c7Step2.errors "x") "_errors" = Value.vUndefined from rfl]
    exact fun hcc => Value.noConfusion hcc

end Superforms
